import Mathlib

/-!
Verification development for the textbelt-utils repository.

Part 1 embeds the request validation found in src/textbelt_utils/models.py
(`SMSRequest.__post_init__` and its `PHONE_REGEX`).  Part 2 models, from the
specification, the components whose source files are absent from src/
(the bulk-send engine of client.py / async_client.py, the webhook check of
utils.py, and the `BulkSMSRequest` validation): each such definition carries a
doc comment starting with `Modelled from the spec:`.
-/

/-- Maximum message length accepted by `SMSRequest` (models.py,
`MAX_MESSAGE_LENGTH: ClassVar[int] = 2000`). -/
def MAX_MESSAGE_LENGTH : Nat := 2000

/-- ASCII decimal digit test, the `0`-`9` range.  Python's `\d` additionally
matches non-ASCII Unicode decimal digits; the embedding restricts attention to
ASCII strings, where the two agree. -/
def isAsciiDigit (c : Char) : Bool :=
  '0' ≤ c && c ≤ '9'

/-- Core of `PHONE_REGEX = re.compile(r'^\+[1-9]\d{1,14}$')` from models.py:
a `+`, one digit `1`-`9`, then one to fourteen digits. -/
def e164Body (cs : List Char) : Bool :=
  match cs with
  | '+' :: d :: rest =>
      ('1' ≤ d && d ≤ '9') && rest.all isAsciiDigit &&
        decide (1 ≤ rest.length) && decide (rest.length ≤ 14)
  | _ => false

/-- Translation of `SMSRequest.PHONE_REGEX.match(phone)` (models.py).  Python's
`$` anchor matches at the end of the string or just before a single newline at
the end of the string, so the pattern also accepts a conforming body followed
by one trailing `'\n'`. -/
def PHONE_REGEX_match (s : String) : Bool :=
  e164Body s.toList ||
    (s.toList.getLast? == some '\n' && e164Body s.toList.dropLast)

/-- Translation of `SMSRequest.__post_init__` (models.py): phone format is
checked first, then over-long message, then empty message.  `Except.error`
stands for the raised `ValueError` with the given text. -/
def smsRequestValidate (phone message : String) : Except String Unit :=
  if !PHONE_REGEX_match phone then
    .error "Phone number must be in E.164 format (e.g., +1234567890)"
  else if message.length > MAX_MESSAGE_LENGTH then
    .error "Message length exceeds maximum of 2000 characters"
  else if message.length == 0 then
    .error "Message cannot be empty"
  else
    .ok ()

/-- The phone shape stated by the spec's glossary and Validator contract:
`+` followed by 2 to 15 digits whose first digit is 1-9.  Written from the
spec's words, to be compared with the source regex. -/
def specE164Shape (s : String) : Bool :=
  match s.toList with
  | '+' :: ds =>
      ds.all isAsciiDigit && decide (2 ≤ ds.length) && decide (ds.length ≤ 15) &&
        (match ds with
         | d :: _ => '1' ≤ d && d ≤ '9'
         | [] => false)
  | _ => false

/-- Modelled from the spec: `is_valid_e164` lives in src/textbelt_utils/utils.py,
which is absent from src/; the spec describes it as the E.164 shape test
(`+` followed by 2-15 digits, first digit 1-9). -/
def is_valid_e164 (s : String) : Bool :=
  specE164Shape s

/-- Modelled from the spec: the bulk request of §3 (`BulkSMSRequest` is listed in
src/textbelt_utils/__init__.py but its definition is absent from
src/textbelt_utils/models.py).  Durations are modelled in hundredths of a time
unit, so the spec's minimum delay 0.1 is `10` and the test value 0.01 is `1`. -/
structure BulkSMSRequest where
  phones : List String
  message : Option String := none
  individual_messages : Option (List (String × String)) := none
  key : String
  batch_size : Nat := 50
  delay_between_messages : Nat := 100

/-- Modelled from the spec: minimum inter-batch delay of Validator check 5
(0.1 time units), in hundredths. -/
def MIN_DELAY : Nat := 10

/-- Modelled from the spec: Validator §4.1, checks in order, short-circuiting on
first failure: non-empty recipients; every recipient E.164; exactly one of
shared message / per-recipient mapping, the mapping covering exactly the
recipient set; batch size at least 1; delay at least the minimum.  An
`Except.error` stands for the raised `InvalidRequest` with its reason. -/
def validateBulk (req : BulkSMSRequest) : Except String Unit :=
  if req.phones.isEmpty then
    .error "recipient list is empty"
  else if !req.phones.all is_valid_e164 then
    .error "invalid phone number: must be E.164 format"
  else
    match req.message, req.individual_messages with
    | none, none => .error "either message or individual_messages must be provided"
    | some _, some _ => .error "only one of message or individual_messages may be provided"
    | some _, none =>
        if req.batch_size < 1 then .error "batch_size must be at least 1"
        else if req.delay_between_messages < MIN_DELAY then
          .error "delay_between_messages is below the minimum"
        else .ok ()
    | none, some im =>
        if !req.phones.all (fun p => (im.lookup p).isSome) then
          .error "individual_messages is missing a message for some recipient"
        else if !im.all (fun kv => req.phones.contains kv.1) then
          .error "individual_messages contains an unknown recipient"
        else if req.batch_size < 1 then .error "batch_size must be at least 1"
        else if req.delay_between_messages < MIN_DELAY then
          .error "delay_between_messages is below the minimum"
        else .ok ()

/-- Modelled from the spec: design note §9, the two message variants are
resolved into a uniform recipient-to-message lookup. -/
def resolveMessage (req : BulkSMSRequest) (r : String) : String :=
  match req.individual_messages with
  | some im => (im.lookup r).getD ""
  | none => req.message.getD ""

/-- Modelled from the spec: Batcher §4.2, fuel-indexed worker.  The fuel starts
at the list length, which suffices whenever `bs ≥ 1` (the Validator enforces
`batch_size ≥ 1` before the Batcher runs). -/
def partitionAux (bs : Nat) : Nat → List α → List (List α)
  | _, [] => []
  | 0, _ :: _ => []
  | fuel + 1, x :: xs =>
      (x :: xs).take bs :: partitionAux bs fuel ((x :: xs).drop bs)

/-- Modelled from the spec: Batcher §4.2, `partition(recipients, batch_size)`
splits the recipient sequence into consecutive chunks of at most `batch_size`,
preserving order; the last chunk may be smaller. -/
def partition (bs : Nat) (l : List α) : List (List α) :=
  partitionAux bs l.length l

/-- Modelled from the spec: Transport §4.5 result contract for a single
`sendOne` call — success with remote id and quota, remote-reported failure with
error text and quota, or the classified quota-exceeded / rate-limited signals. -/
inductive TransportResult where
  | ok (text_id : String) (quota_remaining : Nat)
  | fail (error : String) (quota_remaining : Nat)
  | quotaExceeded
  | rateLimited (retry_after : Nat)
deriving DecidableEq

/-- Modelled from the spec: §3 `PerRecipientOutcome` — recipient, success flag,
optional remote id, optional error text, quota snapshot. -/
structure PerRecipientOutcome where
  recipient : String
  success : Bool
  text_id : Option String
  error : Option String
  quota_remaining : Nat
deriving DecidableEq

/-- Modelled from the spec: §6 — the bulk entry point raises one of
`InvalidRequest`, `QuotaExceeded`, `RateLimited(retryAfter)`. -/
inductive BulkSendError where
  | invalidRequest (reason : String)
  | quotaExceeded
  | rateLimited (retry_after : Nat)
deriving DecidableEq

/-- Modelled from the spec: every Transport call of a batch runs to completion
and yields a recorded outcome; the quota / rate-limit signals are recorded as
failed outcomes with the remote error text when they are not request-fatal. -/
def callOutcome (r : String) : TransportResult → PerRecipientOutcome
  | .ok id q => ⟨r, true, some id, none, q⟩
  | .fail e q => ⟨r, false, none, some e, q⟩
  | .quotaExceeded => ⟨r, false, none, some "Out of quota", 0⟩
  | .rateLimited _ => ⟨r, false, none, some "Rate limit exceeded", 0⟩

/-- Modelled from the spec: Dispatcher §4.3 with the §9 resolution — scanning a
batch's results in recipient order with the count of successes so far in the
run, a rate-limit signal is always request-fatal, and a quota-exceeded signal
is request-fatal exactly when no success has yet occurred in the run. -/
def batchFatal (succ : Nat) : List TransportResult → Option BulkSendError
  | [] => none
  | t :: rest =>
      match t with
      | .rateLimited ra => some (.rateLimited ra)
      | .quotaExceeded => if succ = 0 then some .quotaExceeded else batchFatal succ rest
      | .ok _ _ => batchFatal (succ + 1) rest
      | .fail _ _ => batchFatal succ rest

/-- Number of successful results in a batch. -/
def countSuccesses (rs : List TransportResult) : Nat :=
  (rs.filter fun t => match t with | .ok _ _ => true | _ => false).length

/-- Modelled from the spec: Dispatcher §4.3 — batches are driven strictly in
order; each batch issues one Transport call per recipient and every call of the
batch completes (its outcome is folded in) before the fatality check decides
whether further batches run.  Returns the dispatch result together with the
trace of recipients actually called, so that "no further batches dispatched"
is a statement of the model.  Transport is a function of recipient and message,
matching deterministic result attribution by recipient identity (§5). -/
def dispatchBatches (transport : String → String → TransportResult)
    (resolve : String → String) :
    List (List String) → Nat → Except BulkSendError (List PerRecipientOutcome) × List String
  | [], _ => (.ok [], [])
  | b :: bs, succ =>
      let results := b.map fun r => transport r (resolve r)
      let outs := (b.zip results).map fun p => callOutcome p.1 p.2
      match batchFatal succ results with
      | some e => (.error e, b)
      | none =>
          match dispatchBatches transport resolve bs (succ + countSuccesses results) with
          | (.ok rest, calls) => (.ok (outs ++ rest), b ++ calls)
          | (.error e, calls) => (.error e, b ++ calls)

/-- Modelled from the spec: §3 `BulkReport` (named `BulkSMSResponse` in the
package's public interface): totals, per-recipient outcome and error mappings,
and the derived success / partial-success booleans. -/
structure BulkSMSResponse where
  total_messages : Nat
  successful_messages : Nat
  failed_messages : Nat
  results : List (String × PerRecipientOutcome)
  errors : List (String × String)
  success : Bool
  partial_success : Bool
deriving DecidableEq

/-- Modelled from the spec: Aggregator §4.4, a pure fold over the outcomes —
counts successes and failures, builds the recipient-to-outcome and
recipient-to-error mappings, sets `success` = failures==0 and
`partial_success` = successes>0 AND failures>0. -/
def aggregate (outcomes : List PerRecipientOutcome) : BulkSMSResponse :=
  let succ := (outcomes.filter fun o => o.success).length
  let fail := (outcomes.filter fun o => !o.success).length
  { total_messages := outcomes.length
    successful_messages := succ
    failed_messages := fail
    results := outcomes.map fun o => (o.recipient, o)
    errors := (outcomes.filter fun o => !o.success).map fun o => (o.recipient, o.error.getD "")
    success := fail = 0
    partial_success := decide (0 < succ) && decide (0 < fail) }

/-- Modelled from the spec: §2 control flow of `send_bulk_sms` — Validator,
then Batcher, then Dispatcher, then Aggregator; a validation failure raises
`InvalidRequest` before any network call (empty call trace). -/
def send_bulk_sms (transport : String → String → TransportResult)
    (req : BulkSMSRequest) :
    Except BulkSendError BulkSMSResponse × List String :=
  match validateBulk req with
  | .error e => (.error (.invalidRequest e), [])
  | .ok _ =>
      match dispatchBatches transport (resolveMessage req)
          (partition req.batch_size req.phones) 0 with
      | (.ok outs, calls) => (.ok (aggregate outs), calls)
      | (.error e, calls) => (.error e, calls)

/-- Modelled from the spec: `verify_webhook` lives in src/textbelt_utils/utils.py,
absent from src/.  The HMAC-SHA256 primitive is abstracted as the parameter
`mac` (keyed by the API key, applied to timestamp ++ payload); timestamps are
naturals.  A timestamp older than the freshness window raises
`WebhookVerificationError` (the `Except.error` case) before any signature
comparison; otherwise the provided signature must equal the computed one
exactly. -/
def verify_webhook (mac : String → String → String) (now window : Nat)
    (api_key : String) (timestamp : Nat) (signature payload : String) :
    Except String Bool :=
  if timestamp + window < now then
    .error "webhook timestamp is outside the freshness window"
  else
    .ok (signature == mac api_key (toString timestamp ++ payload))

/-- Modelled from the spec: §5 scheduling events of the Dispatcher — a Transport
call is launched, runs, and completes. -/
inductive DispatchEvent where
  | launch (recipient : String)
  | complete (recipient : String)
deriving DecidableEq

/-- Modelled from the spec: Dispatcher §4.3 — all calls of a batch are launched
without waiting for one another, then all complete (in an arbitrary completion
order) before the next batch starts. -/
def batchTrace (batch completionOrder : List String) : List DispatchEvent :=
  batch.map DispatchEvent.launch ++ completionOrder.map DispatchEvent.complete

/-- Modelled from the spec: §5 — batches execute strictly sequentially, so the
run's event trace is the concatenation of the batch traces, each batch paired
with the completion order its concurrent calls happened to finish in. -/
def dispatchTrace : List (List String × List String) → List DispatchEvent
  | [] => []
  | (b, ord) :: rest => batchTrace b ord ++ dispatchTrace rest

/-- Number of launch events in a trace. -/
def launchCount (t : List DispatchEvent) : Nat :=
  (t.filter fun e => match e with | .launch _ => true | _ => false).length

/-- Number of completion events in a trace. -/
def completeCount (t : List DispatchEvent) : Nat :=
  (t.filter fun e => match e with | .complete _ => true | _ => false).length

/-- Calls in flight after a prefix of the trace: launched but not yet
completed. -/
def inFlight (t : List DispatchEvent) : Nat :=
  launchCount t - completeCount t

/-- Transport of the partial-failure scenario (test_bulk_send.py,
`test_bulk_send_partial_failure`): recipient +12025550108 succeeds with id
12345 and quota 100, every other recipient fails with "Invalid number" and
quota 99. -/
def scenTransport (r : String) (_m : String) : TransportResult :=
  if r = "+12025550108" then .ok "12345" 100 else .fail "Invalid number" 99

/-- The base bulk request of the tests: two E.164 phones and a shared
message. -/
def scenReq : BulkSMSRequest :=
  { phones := ["+12025550108", "+12025550109"], message := some "Test bulk message",
    key := "test_key", batch_size := 50, delay_between_messages := 100 }

/-- Transport of the quota-exceeded scenario (test_bulk_send.py,
`test_bulk_send_quota_exceeded`): every call reports quota exhaustion. -/
def quotaTransport (_r _m : String) : TransportResult :=
  .quotaExceeded

/-- The report the engine produces in the partial-failure scenario. -/
def scenResponse : BulkSMSResponse :=
  match (send_bulk_sms scenTransport scenReq).1 with
  | .ok r => r
  | .error _ => aggregate []

/-- Invalid request of the validation tests: empty recipient list. -/
def rEmpty : BulkSMSRequest :=
  { phones := [], message := some "Test message", key := "test_key" }

/-- Invalid request of the validation tests: batch_size = 0. -/
def rBatch0 : BulkSMSRequest :=
  { phones := ["+12025550108"], message := some "Test message", key := "test_key",
    batch_size := 0 }

/-- Invalid request of the validation tests: delay 0.01, i.e. 1 hundredth,
below the minimum threshold 0.1 (= 10 hundredths). -/
def rDelay : BulkSMSRequest :=
  { phones := ["+12025550108"], message := some "Test message", key := "test_key",
    delay_between_messages := 1 }

/-- Invalid request of the validation tests: the per-recipient mapping misses
recipient +12025550109. -/
def rMissing : BulkSMSRequest :=
  { phones := ["+12025550108", "+12025550109"],
    individual_messages := some [("+12025550108", "Message 1")], key := "test_key" }

theorem length_filter_not_add (p : α → Bool) (l : List α) :
    (l.filter p).length + (l.filter fun a => !(p a)).length = l.length := by
  induction l with
  | nil => rfl
  | cons x xs ih =>
      by_cases h : p x = true <;> simp [List.filter_cons, h] <;> omega

theorem aggregate_total (outcomes : List PerRecipientOutcome) :
    (aggregate outcomes).total_messages = outcomes.length := rfl

theorem aggregate_successful (outcomes : List PerRecipientOutcome) :
    (aggregate outcomes).successful_messages =
      (outcomes.filter fun o => o.success).length := rfl

theorem aggregate_failed (outcomes : List PerRecipientOutcome) :
    (aggregate outcomes).failed_messages =
      (outcomes.filter fun o => !o.success).length := rfl

theorem aggregate_counts (outcomes : List PerRecipientOutcome) :
    (aggregate outcomes).successful_messages + (aggregate outcomes).failed_messages =
      outcomes.length := by
  rw [aggregate_successful, aggregate_failed]
  exact length_filter_not_add (fun o => o.success) outcomes

theorem aggregate_success_def (outcomes : List PerRecipientOutcome) :
    (aggregate outcomes).success =
      decide ((aggregate outcomes).failed_messages = 0) := rfl

theorem aggregate_partial_def (outcomes : List PerRecipientOutcome) :
    (aggregate outcomes).partial_success =
      (decide (0 < (aggregate outcomes).successful_messages) &&
       decide (0 < (aggregate outcomes).failed_messages)) := rfl

theorem partitionAux_nil (bs fuel : Nat) :
    partitionAux bs fuel ([] : List α) = [] := by
  cases fuel <;> rfl

theorem partitionAux_join (bs : Nat) (hbs : 1 ≤ bs) :
    ∀ (fuel : Nat) (l : List α), l.length ≤ fuel →
      (partitionAux bs fuel l).flatten = l := by
  intro fuel
  induction fuel with
  | zero =>
      intro l hl
      have : l = [] := List.length_eq_zero.mp (Nat.le_zero.mp hl)
      subst this
      rfl
  | succ n ih =>
      intro l hl
      cases l with
      | nil => rfl
      | cons x xs =>
          have hdrop : ((x :: xs).drop bs).length ≤ n := by
            simp only [List.length_drop, List.length_cons]
            simp only [List.length_cons] at hl
            omega
          simp only [partitionAux, List.flatten_cons, ih _ hdrop,
            List.take_append_drop]

theorem partition_join (bs : Nat) (hbs : 1 ≤ bs) (l : List α) :
    (partition bs l).flatten = l :=
  partitionAux_join bs hbs l.length l (Nat.le_refl _)

theorem partitionAux_sizes (bs fuel : Nat) (l : List α) :
    ∀ c ∈ partitionAux bs fuel l, c.length ≤ bs := by
  induction fuel generalizing l with
  | zero => cases l <;> simp [partitionAux]
  | succ n ih =>
      cases l with
      | nil => simp [partitionAux]
      | cons x xs =>
          intro c hc
          simp only [partitionAux, List.mem_cons] at hc
          rcases hc with hc | hc
          · subst hc
            simp [List.length_take]
          · exact ih _ c hc

theorem partitionAux_dropLast_sizes (bs : Nat) (hbs : 1 ≤ bs) :
    ∀ (fuel : Nat) (l : List α), l.length ≤ fuel →
      ∀ c ∈ (partitionAux bs fuel l).dropLast, c.length = bs := by
  intro fuel
  induction fuel with
  | zero =>
      intro l hl
      have : l = [] := List.length_eq_zero.mp (Nat.le_zero.mp hl)
      subst this
      simp [partitionAux]
  | succ n ih =>
      intro l hl
      cases l with
      | nil => simp [partitionAux]
      | cons x xs =>
          intro c hc
          simp only [partitionAux] at hc
          cases hrest : partitionAux bs n ((x :: xs).drop bs) with
          | nil => simp [hrest] at hc
          | cons y ys =>
              rw [hrest, List.dropLast_cons₂, List.mem_cons] at hc
              have hdrop : ((x :: xs).drop bs).length ≤ n := by
                simp only [List.length_drop, List.length_cons]
                simp only [List.length_cons] at hl
                omega
              rcases hc with hc | hc
              · subst hc
                have hne : (x :: xs).drop bs ≠ [] := by
                  intro hnil
                  rw [hnil, partitionAux_nil] at hrest
                  exact List.noConfusion hrest
                have hlt : bs < (x :: xs).length := by
                  by_contra hge
                  exact hne (List.drop_eq_nil_of_le (Nat.le_of_not_lt hge))
                simp only [List.length_take, List.length_cons]
                simp only [List.length_cons] at hlt
                omega
              · have := ih ((x :: xs).drop bs) hdrop c
                rw [hrest] at this
                exact this hc

theorem partition_sizes (bs : Nat) (l : List α) :
    ∀ c ∈ partition bs l, c.length ≤ bs :=
  partitionAux_sizes bs l.length l

theorem partition_dropLast_sizes (bs : Nat) (hbs : 1 ≤ bs) (l : List α) :
    ∀ c ∈ (partition bs l).dropLast, c.length = bs :=
  partitionAux_dropLast_sizes bs hbs l.length l (Nat.le_refl _)

theorem validateBulk_ok_batch_size (req : BulkSMSRequest)
    (h : validateBulk req = .ok ()) : 1 ≤ req.batch_size := by
  unfold validateBulk at h
  split at h
  next => exact absurd h (by simp)
  next =>
    split at h
    next => exact absurd h (by simp)
    next =>
      split at h
      next => exact absurd h (by simp)
      next => exact absurd h (by simp)
      next =>
        split at h
        next => exact absurd h (by simp)
        next =>
          split at h
          next => exact absurd h (by simp)
          next => omega
      next im =>
        split at h
        next => exact absurd h (by simp)
        next =>
          split at h
          next => exact absurd h (by simp)
          next =>
            split at h
            next => exact absurd h (by simp)
            next =>
              split at h
              next => exact absurd h (by simp)
              next => omega

theorem dispatchBatches_ok_length (transport : String → String → TransportResult)
    (resolve : String → String) :
    ∀ (batches : List (List String)) (succ : Nat)
      (outs : List PerRecipientOutcome) (calls : List String),
      dispatchBatches transport resolve batches succ = (.ok outs, calls) →
      outs.length = (batches.map List.length).sum := by
  intro batches
  induction batches with
  | nil =>
      intro succ outs calls h
      simp only [dispatchBatches, Prod.mk.injEq, Except.ok.injEq] at h
      simp [← h.1]
  | cons b bs ih =>
      intro succ outs calls h
      simp only [dispatchBatches] at h
      split at h
      · simp at h
      · split at h
        next rest calls' heq =>
          simp only [Prod.mk.injEq] at h
          have houts := h.1
          rw [Except.ok.injEq] at houts
          rw [← houts]
          simp only [List.length_append, List.length_map, List.length_zip,
            List.length_map, Nat.min_self, List.map_cons, List.sum_cons]
          rw [ih _ _ _ heq]
        next e calls' heq =>
          simp at h

theorem batchFatal_none (results : List TransportResult)
    (h : ∀ t ∈ results, (∀ ra, t ≠ .rateLimited ra) ∧ t ≠ .quotaExceeded) :
    ∀ succ, batchFatal succ results = none := by
  induction results with
  | nil => intro succ; rfl
  | cons t rest ih =>
      intro succ
      have hrest := fun t ht => h t (List.mem_cons_of_mem _ ht)
      cases t with
      | ok id q => simpa only [batchFatal] using ih hrest (succ + 1)
      | fail e q => simpa only [batchFatal] using ih hrest succ
      | quotaExceeded => exact absurd rfl (h _ (List.mem_cons_self _ _)).2
      | rateLimited ra => exact absurd rfl ((h _ (List.mem_cons_self _ _)).1 ra)

theorem dispatchBatches_no_fatal (transport : String → String → TransportResult)
    (resolve : String → String) :
    ∀ (batches : List (List String)) (succ : Nat),
      (∀ b ∈ batches, ∀ r ∈ b,
        (∀ ra, transport r (resolve r) ≠ .rateLimited ra) ∧
          transport r (resolve r) ≠ .quotaExceeded) →
      ∃ outs calls,
        dispatchBatches transport resolve batches succ = (.ok outs, calls) := by
  intro batches
  induction batches with
  | nil => exact fun succ _ => ⟨[], [], rfl⟩
  | cons b bs ih =>
      intro succ h
      have hfatal : ∀ succ',
          batchFatal succ' (b.map fun r => transport r (resolve r)) = none := by
        intro succ'
        refine batchFatal_none _ ?_ succ'
        intro t ht
        rw [List.mem_map] at ht
        obtain ⟨r, hr, rfl⟩ := ht
        exact h b (List.mem_cons_self _ _) r hr
      obtain ⟨outs, calls, hrec⟩ :=
        ih (succ + countSuccesses (b.map fun r => transport r (resolve r)))
          (fun b' hb' => h b' (List.mem_cons_of_mem _ hb'))
      refine ⟨((b.zip (b.map fun r => transport r (resolve r))).map
          fun p => callOutcome p.1 p.2) ++ outs, b ++ calls, ?_⟩
      simp only [dispatchBatches, hfatal, hrec]

theorem send_bulk_sms_no_fatal (transport : String → String → TransportResult)
    (req : BulkSMSRequest)
    (hval : validateBulk req = .ok ())
    (h : ∀ r ∈ req.phones,
      (∀ ra, transport r (resolveMessage req r) ≠ .rateLimited ra) ∧
        transport r (resolveMessage req r) ≠ .quotaExceeded) :
    ∃ resp calls, send_bulk_sms transport req = (.ok resp, calls) ∧
      resp.total_messages = req.phones.length := by
  have hbs := validateBulk_ok_batch_size req hval
  have hb : ∀ b ∈ partition req.batch_size req.phones, ∀ r ∈ b,
      (∀ ra, transport r (resolveMessage req r) ≠ .rateLimited ra) ∧
        transport r (resolveMessage req r) ≠ .quotaExceeded := by
    intro b hbmem r hr
    refine h r ?_
    have hjoin := partition_join req.batch_size hbs req.phones
    rw [← hjoin]
    exact List.mem_flatten.mpr ⟨b, hbmem, hr⟩
  obtain ⟨outs, calls, hdisp⟩ :=
    dispatchBatches_no_fatal transport (resolveMessage req)
      (partition req.batch_size req.phones) 0 hb
  refine ⟨aggregate outs, calls, ?_, ?_⟩
  · simp only [send_bulk_sms, hval, hdisp]
  · rw [aggregate_total]
    rw [dispatchBatches_ok_length transport (resolveMessage req) _ _ _ _ hdisp]
    rw [← List.length_flatten, partition_join req.batch_size hbs req.phones]

/-- C1: for every valid bulk request with N recipients, the report produced by
the bulk send — equivalently `aggregate` applied to the N per-recipient
outcomes — has `total_messages` equal to N and `successful_messages +
failed_messages` equal to N. -/
theorem C1_bulk_report_totals :
    (∀ outcomes : List PerRecipientOutcome,
      (aggregate outcomes).total_messages = outcomes.length ∧
      (aggregate outcomes).successful_messages + (aggregate outcomes).failed_messages =
        outcomes.length) ∧
    (∀ (transport : String → String → TransportResult) (req : BulkSMSRequest)
      (resp : BulkSMSResponse) (calls : List String),
      send_bulk_sms transport req = (.ok resp, calls) →
      resp.total_messages = req.phones.length ∧
      resp.successful_messages + resp.failed_messages = req.phones.length) := by
  constructor
  · exact fun outcomes => ⟨aggregate_total outcomes, aggregate_counts outcomes⟩
  · intro transport req resp calls h
    unfold send_bulk_sms at h
    split at h
    next e heq => simp at h
    next val hval =>
      split at h
      next outs calls' heq =>
        simp only [Prod.mk.injEq, Except.ok.injEq] at h
        obtain ⟨hresp, hcalls⟩ := h
        subst hresp
        have hbs := validateBulk_ok_batch_size req hval
        have hlen : outs.length = req.phones.length := by
          rw [dispatchBatches_ok_length transport (resolveMessage req) _ _ _ _ heq]
          rw [← List.length_flatten, partition_join req.batch_size hbs req.phones]
        exact ⟨by rw [aggregate_total, hlen], by rw [aggregate_counts, hlen]⟩
      next e calls' heq => simp at h

/-- Witness for C1 at the partial-failure scenario: two recipients, one
success, one failure. -/
theorem C1_bulk_report_totals_witness :
    scenResponse.total_messages = scenReq.phones.length ∧
    scenResponse.successful_messages + scenResponse.failed_messages =
      scenReq.phones.length :=
  C1_bulk_report_totals.2 scenTransport scenReq scenResponse scenReq.phones rfl

/-- C2: in every report the engine produces, `success` holds iff
`failed_messages = 0`, `partial_success` holds iff both counts are positive,
and for a non-empty outcome list exactly one of success, partial success, or
total failure (zero successes) holds. -/
theorem C2_report_classification (outcomes : List PerRecipientOutcome)
    (h : outcomes ≠ []) :
    ((aggregate outcomes).success = true ↔ (aggregate outcomes).failed_messages = 0) ∧
    ((aggregate outcomes).partial_success = true ↔
      0 < (aggregate outcomes).successful_messages ∧
        0 < (aggregate outcomes).failed_messages) ∧
    (((aggregate outcomes).success = true ∧ ¬(aggregate outcomes).partial_success = true ∧
        ¬(aggregate outcomes).successful_messages = 0) ∨
     (¬(aggregate outcomes).success = true ∧ (aggregate outcomes).partial_success = true ∧
        ¬(aggregate outcomes).successful_messages = 0) ∨
     (¬(aggregate outcomes).success = true ∧ ¬(aggregate outcomes).partial_success = true ∧
        (aggregate outcomes).successful_messages = 0)) := by
  have hsum := aggregate_counts outcomes
  have hn : 0 < outcomes.length := List.length_pos.mpr h
  have h1 : (aggregate outcomes).success = true ↔
      (aggregate outcomes).failed_messages = 0 := by
    rw [aggregate_success_def]
    simp only [decide_eq_true_eq]
  have h2 : (aggregate outcomes).partial_success = true ↔
      0 < (aggregate outcomes).successful_messages ∧
        0 < (aggregate outcomes).failed_messages := by
    rw [aggregate_partial_def]
    simp only [Bool.and_eq_true, decide_eq_true_eq]
  refine ⟨h1, h2, ?_⟩
  rw [h1, h2]
  omega

/-- Witness for C2 at a one-outcome report. -/
theorem C2_report_classification_witness :
    (aggregate [(⟨"+12025550108", true, some "12345", none, 100⟩ : PerRecipientOutcome)]).success = true ↔
      (aggregate [(⟨"+12025550108", true, some "12345", none, 100⟩ : PerRecipientOutcome)]).failed_messages = 0 :=
  (C2_report_classification
    [(⟨"+12025550108", true, some "12345", none, 100⟩ : PerRecipientOutcome)]
    (by simp)).1

set_option maxRecDepth 4000 in
/-- C3: for every recipient sequence and every `batch_size ≥ 1`, `partition`
returns consecutive chunks, each of size at most `batch_size`, whose
concatenation is the original sequence (order preserved, nothing duplicated or
dropped), with only the last chunk possibly smaller; 150 recipients with
batch size 50 give batches of sizes [50, 50, 50] and 151 give
[50, 50, 50, 1]. -/
theorem C3_partition_batches (bs : Nat) (hbs : 1 ≤ bs) (l : List String) :
    ((partition bs l).flatten = l ∧
     (∀ c ∈ partition bs l, c.length ≤ bs) ∧
     (∀ c ∈ (partition bs l).dropLast, c.length = bs)) ∧
    ((partition 50 ((List.range 150).map toString)).map List.length =
        [50, 50, 50] ∧
     (partition 50 ((List.range 151).map toString)).map List.length =
        [50, 50, 50, 1]) :=
  ⟨⟨partition_join bs hbs l, partition_sizes bs l, partition_dropLast_sizes bs hbs l⟩,
   by decide, by decide⟩

/-- Witness for C3 at batch size 2 over three recipients. -/
theorem C3_partition_batches_witness :
    (partition 2 ["+12025550108", "+12025550109", "+12025550110"]).flatten =
      ["+12025550108", "+12025550109", "+12025550110"] :=
  (C3_partition_batches 2 (by decide)
    ["+12025550108", "+12025550109", "+12025550110"]).1.1

/-- C4: a per-recipient send failure that is not a request-scope quota or
rate-limit condition does not abort the bulk run — it is recorded as a failed
outcome and dispatch continues; concretely, for phones +12025550108 and
+12025550109 with a shared message, Transport reporting success for the first
and failure "Invalid number" for the second, the report has total 2,
successful 1, failed 1, `success = false`, `partial_success = true`, and the
errors mapping holds exactly +12025550109 with "Invalid number". -/
theorem C4_partial_failure_recovered :
    (∀ (transport : String → String → TransportResult) (req : BulkSMSRequest),
      validateBulk req = .ok () →
      (∀ r ∈ req.phones,
        (∀ ra, transport r (resolveMessage req r) ≠ .rateLimited ra) ∧
          transport r (resolveMessage req r) ≠ .quotaExceeded) →
      ∃ resp calls, send_bulk_sms transport req = (.ok resp, calls) ∧
        resp.total_messages = req.phones.length) ∧
    send_bulk_sms scenTransport scenReq =
      (.ok { total_messages := 2, successful_messages := 1, failed_messages := 1,
             results := [("+12025550108",
                           ⟨"+12025550108", true, some "12345", none, 100⟩),
                         ("+12025550109",
                           ⟨"+12025550109", false, none, some "Invalid number", 99⟩)],
             errors := [("+12025550109", "Invalid number")],
             success := false, partial_success := true },
       ["+12025550108", "+12025550109"]) :=
  ⟨send_bulk_sms_no_fatal, by rfl⟩

/-- Witness for C4: the partial-failure scenario transport reports no
request-scope quota or rate-limit signal, so the run completes with a full
report. -/
theorem C4_partial_failure_recovered_witness :
    ∃ resp calls, send_bulk_sms scenTransport scenReq = (.ok resp, calls) ∧
      resp.total_messages = scenReq.phones.length :=
  C4_partial_failure_recovered.1 scenTransport scenReq rfl (by
    intro r hr
    refine ⟨fun ra => ?_, ?_⟩ <;> unfold scenTransport <;> split <;> simp)

theorem dispatchBatches_quota_first (transport : String → String → TransportResult)
    (resolve : String → String) (p : String) (t : List String)
    (rest : List (List String)) (hq : transport p (resolve p) = .quotaExceeded) :
    dispatchBatches transport resolve ((p :: t) :: rest) 0 =
      (.error .quotaExceeded, p :: t) := by
  simp only [dispatchBatches, List.map_cons, hq, batchFatal, if_pos rfl]
  simp

theorem partition_cons (bs : Nat) (hbs : 1 ≤ bs) (x : α) (xs : List α) :
    partition bs (x :: xs) =
      (x :: xs.take (bs - 1)) :: partitionAux bs xs.length ((x :: xs).drop bs) := by
  rw [partition]
  simp only [List.length_cons, partitionAux]
  congr 1
  rcases bs with _ | n
  · omega
  · simp

/-- C5: if Transport reports quota exhaustion on the very first call of a bulk
run, the bulk send raises a top-level QuotaExceeded error, and only the first
batch was dispatched. -/
theorem C5_quota_first_call_aborts (transport : String → String → TransportResult)
    (req : BulkSMSRequest) (p : String) (ps : List String)
    (hphones : req.phones = p :: ps)
    (hval : validateBulk req = .ok ())
    (hq : transport p (resolveMessage req p) = .quotaExceeded) :
    send_bulk_sms transport req =
      (.error .quotaExceeded, req.phones.take req.batch_size) := by
  have hbs := validateBulk_ok_batch_size req hval
  have htake : req.phones.take req.batch_size = p :: ps.take (req.batch_size - 1) := by
    rw [hphones]
    rcases hbsk : req.batch_size with _ | n
    · omega
    · simp
  unfold send_bulk_sms
  rw [hval, hphones, partition_cons req.batch_size hbs p ps,
    dispatchBatches_quota_first transport (resolveMessage req) p _ _ hq]
  rw [← hphones, htake]

/-- Witness for C5: with every Transport call reporting quota exhaustion, the
scenario request aborts with the top-level quota error after the first (only)
batch. -/
theorem C5_quota_first_call_aborts_witness :
    send_bulk_sms quotaTransport scenReq =
      (.error .quotaExceeded, scenReq.phones.take scenReq.batch_size) :=
  C5_quota_first_call_aborts quotaTransport scenReq "+12025550108"
    ["+12025550109"] rfl rfl rfl

/-- C6: constructing a bulk request with an empty recipient list, or
batch_size 0, or delay 0.01 (one hundredth, below the 0.1 minimum), or a
per-recipient message mapping missing one recipient, raises InvalidRequest in
each of the four cases; and every validation failure is raised before any
network call (the Transport call trace is empty). -/
theorem C6_invalid_request_validation :
    validateBulk rEmpty = .error "recipient list is empty" ∧
    validateBulk rBatch0 = .error "batch_size must be at least 1" ∧
    validateBulk rDelay = .error "delay_between_messages is below the minimum" ∧
    validateBulk rMissing =
      .error "individual_messages is missing a message for some recipient" ∧
    (∀ (transport : String → String → TransportResult) (req : BulkSMSRequest)
      (e : String), validateBulk req = .error e →
      send_bulk_sms transport req = (.error (.invalidRequest e), [])) := by
  refine ⟨rfl, rfl, rfl, rfl, ?_⟩
  intro transport req e h
  unfold send_bulk_sms
  rw [h]

/-- Witness for C6: the empty-recipients request reaches no Transport call. -/
theorem C6_invalid_request_validation_witness :
    send_bulk_sms quotaTransport rEmpty =
      (.error (.invalidRequest "recipient list is empty"), []) :=
  C6_invalid_request_validation.2.2.2.2 quotaTransport rEmpty
    "recipient list is empty" rfl

/-- C8: `verify_webhook` accepts exactly when the provided signature equals the
keyed MAC of `timestamp ++ payload`; any mismatched signature is rejected
(verification returns false), and a timestamp older than the freshness window
raises `WebhookVerificationError` even for the signature that is valid for
that timestamp and payload. -/
theorem C8_verify_webhook_correct (mac : String → String → String)
    (now window : Nat) (api_key : String) (timestamp : Nat)
    (signature payload : String) :
    (verify_webhook mac now window api_key timestamp signature payload = .ok true ↔
      ¬timestamp + window < now ∧
        signature = mac api_key (toString timestamp ++ payload)) ∧
    (¬timestamp + window < now →
      signature ≠ mac api_key (toString timestamp ++ payload) →
      verify_webhook mac now window api_key timestamp signature payload = .ok false) ∧
    (timestamp + window < now →
      verify_webhook mac now window api_key timestamp
          (mac api_key (toString timestamp ++ payload)) payload =
        .error "webhook timestamp is outside the freshness window") := by
  refine ⟨?_, ?_, ?_⟩
  · unfold verify_webhook
    split
    next hlt => simp [hlt]
    next hlt => simp [hlt]
  · intro hlt hne
    unfold verify_webhook
    rw [if_neg hlt]
    simp [hne]
  · intro hlt
    unfold verify_webhook
    rw [if_pos hlt]

/-- Witness for C8 with a concrete MAC function, a fresh timestamp and its
valid signature. -/
theorem C8_verify_webhook_correct_witness :
    verify_webhook (fun k m => k ++ "#" ++ m) 100 50 "test_key" 60
        ("test_key" ++ "#" ++ (toString (60 : Nat) ++ "x")) "x" = .ok true :=
  (C8_verify_webhook_correct (fun k m => k ++ "#" ++ m) 100 50 "test_key" 60
      ("test_key" ++ "#" ++ (toString (60 : Nat) ++ "x")) "x").1.mpr
    ⟨by decide, rfl⟩

theorem launchCount_append (a b : List DispatchEvent) :
    launchCount (a ++ b) = launchCount a + launchCount b := by
  simp [launchCount, List.filter_append]

theorem completeCount_append (a b : List DispatchEvent) :
    completeCount (a ++ b) = completeCount a + completeCount b := by
  simp [completeCount, List.filter_append]

theorem launchCount_launch_map (l : List String) :
    launchCount (l.map DispatchEvent.launch) = l.length := by
  induction l with
  | nil => rfl
  | cons x xs ih =>
      simp only [List.map_cons, launchCount, List.filter_cons] at ih ⊢
      simp [ih]

theorem completeCount_launch_map (l : List String) :
    completeCount (l.map DispatchEvent.launch) = 0 := by
  induction l with
  | nil => rfl
  | cons x xs ih =>
      simp only [List.map_cons, completeCount, List.filter_cons] at ih ⊢
      simp [ih]

theorem launchCount_complete_map (l : List String) :
    launchCount (l.map DispatchEvent.complete) = 0 := by
  induction l with
  | nil => rfl
  | cons x xs ih =>
      simp only [List.map_cons, launchCount, List.filter_cons] at ih ⊢
      simp [ih]

theorem completeCount_complete_map (l : List String) :
    completeCount (l.map DispatchEvent.complete) = l.length := by
  induction l with
  | nil => rfl
  | cons x xs ih =>
      simp only [List.map_cons, completeCount, List.filter_cons] at ih ⊢
      simp [ih]

theorem batch_prefix_bound (b ord : List String) (pre suf : List DispatchEvent)
    (h : pre ++ suf = batchTrace b ord) :
    inFlight pre ≤ b.length := by
  unfold batchTrace at h
  rcases List.append_eq_append_iff.mp h with ⟨t, ht1, ht2⟩ | ⟨t, ht1, ht2⟩
  · have hcount : launchCount pre + launchCount t = b.length := by
      rw [← launchCount_append, ← ht1, launchCount_launch_map]
    unfold inFlight
    omega
  · have hlc : launchCount t = 0 := by
      have : launchCount t + launchCount suf = 0 := by
        rw [← launchCount_append, ← ht2, launchCount_complete_map]
      omega
    rw [ht1]
    unfold inFlight
    rw [launchCount_append, completeCount_append, launchCount_launch_map,
      completeCount_launch_map, hlc]
    omega

theorem dispatchTrace_balanced (sched : List (List String × List String))
    (h : ∀ pair ∈ sched, pair.2.length = pair.1.length) :
    launchCount (dispatchTrace sched) = completeCount (dispatchTrace sched) := by
  induction sched with
  | nil => rfl
  | cons pair rest ih =>
      rcases pair with ⟨b, ord⟩
      have hord : ord.length = b.length := h (b, ord) (List.mem_cons_self _ _)
      simp only [dispatchTrace, batchTrace, List.append_assoc, launchCount_append,
        completeCount_append, launchCount_launch_map, completeCount_launch_map,
        launchCount_complete_map, completeCount_complete_map, hord]
      rw [ih (fun pr hpr => h pr (List.mem_cons_of_mem _ hpr))]
      omega

theorem dispatchTrace_prefix_bound (B : Nat) :
    ∀ (sched : List (List String × List String)),
      (∀ pair ∈ sched, pair.1.length ≤ B ∧ pair.2.length = pair.1.length) →
      ∀ pre suf, pre ++ suf = dispatchTrace sched → inFlight pre ≤ B := by
  intro sched
  induction sched with
  | nil =>
      intro _ pre suf hps
      simp only [dispatchTrace] at hps
      have hpre : pre = [] := (List.append_eq_nil.mp hps).1
      subst hpre
      simp [inFlight, launchCount]
  | cons pair rest ih =>
      intro h pre suf hps
      rcases pair with ⟨b, ord⟩
      simp only [dispatchTrace] at hps
      rcases List.append_eq_append_iff.mp hps with ⟨t, ht1, ht2⟩ | ⟨t, ht1, ht2⟩
      · have hb := batch_prefix_bound b ord pre t ht1.symm
        have hbB : b.length ≤ B := (h (b, ord) (List.mem_cons_self _ _)).1
        omega
      · have hbound := ih (fun pr hpr => h pr (List.mem_cons_of_mem _ hpr)) t suf ht2.symm
        have hord : ord.length = b.length := (h (b, ord) (List.mem_cons_self _ _)).2
        rw [ht1]
        unfold inFlight at hbound ⊢
        unfold batchTrace
        rw [launchCount_append, completeCount_append, launchCount_append,
          completeCount_append, launchCount_launch_map, completeCount_launch_map,
          launchCount_complete_map, completeCount_complete_map, hord]
        omega

/-- C9: in the Dispatcher's event model, with every batch of size at most B
(and as many completions as launches per batch), no prefix of the run's trace
ever has more than B Transport calls in flight, and at every batch boundary the
in-flight count is zero — all calls of a batch complete before the next batch
launches. -/
theorem C9_concurrency_bound (B : Nat) (sched : List (List String × List String))
    (hsize : ∀ pair ∈ sched, pair.1.length ≤ B ∧ pair.2.length = pair.1.length) :
    (∀ pre suf, pre ++ suf = dispatchTrace sched → inFlight pre ≤ B) ∧
    (∀ k, inFlight (dispatchTrace (sched.take k)) = 0) := by
  constructor
  · exact dispatchTrace_prefix_bound B sched hsize
  · intro k
    have hb := dispatchTrace_balanced (sched.take k)
      (fun pair hpair => (hsize pair (List.mem_of_mem_take hpair)).2)
    unfold inFlight
    omega

/-- Witness for C9 at a two-batch schedule with batch bound 2. -/
theorem C9_concurrency_bound_witness :
    inFlight (dispatchTrace ([(["+12025550108", "+12025550109"],
        ["+12025550109", "+12025550108"]),
      (["+12025550110"], ["+12025550110"])].take 1)) = 0 :=
  (C9_concurrency_bound 2
    [(["+12025550108", "+12025550109"], ["+12025550109", "+12025550108"]),
     (["+12025550110"], ["+12025550110"])] (by decide)).2 1

theorem e164Body_iff (cs : List Char) :
    e164Body cs = true ↔
      ∃ d rest, cs = '+' :: d :: rest ∧ ('1' ≤ d ∧ d ≤ '9') ∧
        rest.all isAsciiDigit = true ∧ 1 ≤ rest.length ∧ rest.length ≤ 14 := by
  unfold e164Body
  split
  next d rest =>
    simp only [Bool.and_eq_true, decide_eq_true_eq]
    constructor
    · rintro ⟨⟨⟨⟨hd1, hd9⟩, hall⟩, hlo⟩, hhi⟩
      exact ⟨d, rest, rfl, ⟨hd1, hd9⟩, hall, hlo, hhi⟩
    · rintro ⟨d', rest', heq, ⟨hd1, hd9⟩, hall, hlo, hhi⟩
      obtain ⟨hd, hrest⟩ : d = d' ∧ rest = rest' := by
        injection heq with h1 h2
        injection h2 with h3 h4
        exact ⟨h3, h4⟩
      subst hd
      subst hrest
      exact ⟨⟨⟨⟨hd1, hd9⟩, hall⟩, hlo⟩, hhi⟩
  next h =>
    simp only [Bool.false_eq_true, false_iff]
    rintro ⟨d, rest, rfl, h2⟩
    exact h d rest rfl

theorem specE164Shape_iff (s : String) :
    specE164Shape s = true ↔
      ∃ d rest, s.toList = '+' :: d :: rest ∧ ('1' ≤ d ∧ d ≤ '9') ∧
        rest.all isAsciiDigit = true ∧ 1 ≤ rest.length ∧ rest.length ≤ 14 := by
  unfold specE164Shape
  split
  next ds heq =>
    rw [heq]
    cases ds with
    | nil => simp
    | cons d rest =>
        simp only [List.all_cons, Bool.and_eq_true, decide_eq_true_eq,
          List.length_cons]
        constructor
        · rintro ⟨⟨⟨⟨hd, hall⟩, hlo⟩, hhi⟩, hd1, hd9⟩
          exact ⟨d, rest, rfl, ⟨hd1, hd9⟩, hall, by omega, by omega⟩
        · rintro ⟨d', rest', heq2, ⟨hd1, hd9⟩, hall, hlo, hhi⟩
          obtain ⟨hd, hrest⟩ : d = d' ∧ rest = rest' := by
            injection heq2 with h1 h2
            injection h2 with h3 h4
            exact ⟨h3, h4⟩
          subst hd
          subst hrest
          have hdig : isAsciiDigit d = true := by
            unfold isAsciiDigit
            simp only [Bool.and_eq_true, decide_eq_true_eq]
            exact ⟨le_trans (by decide : ('0' : Char) ≤ '1') hd1, hd9⟩
          exact ⟨⟨⟨⟨hdig, hall⟩, by omega⟩, by omega⟩, hd1, hd9⟩
  next h =>
    simp only [Bool.false_eq_true, false_iff]
    rintro ⟨d, rest, hds, h2⟩
    exact h (d :: rest) hds

theorem e164Body_eq_specE164Shape (s : String) :
    e164Body s.toList = specE164Shape s := by
  rw [Bool.eq_iff_iff, e164Body_iff, specE164Shape_iff]

theorem PHONE_REGEX_match_iff (s : String) :
    PHONE_REGEX_match s = true ↔
      (specE164Shape s = true ∨
        (s.toList.getLast? = some '\n' ∧
          specE164Shape (String.mk s.toList.dropLast) = true)) := by
  unfold PHONE_REGEX_match
  rw [Bool.or_eq_true, Bool.and_eq_true, beq_iff_eq]
  rw [e164Body_eq_specE164Shape]
  have h2 : e164Body s.toList.dropLast =
      specE164Shape (String.mk s.toList.dropLast) :=
    e164Body_eq_specE164Shape (String.mk s.toList.dropLast)
  rw [h2]

theorem smsRequestValidate_ok_iff (phone msg : String)
    (h1 : 1 ≤ msg.length) (h2 : msg.length ≤ MAX_MESSAGE_LENGTH) :
    smsRequestValidate phone msg = .ok () ↔ PHONE_REGEX_match phone = true := by
  unfold smsRequestValidate
  constructor
  · intro h
    by_contra hb
    rw [Bool.not_eq_true] at hb
    rw [hb] at h
    simp at h
  · intro hm
    rw [hm]
    simp only [Bool.not_true, Bool.false_eq_true, if_false]
    rw [if_neg (by omega), if_neg (by simp; omega)]

/-- C7 counterexample: the phone string "+12\n" (a conforming body followed by
one trailing newline) is not of the claimed shape — `+` followed by 2 to 15
digits with first digit 1-9 — yet `SMSRequest` construction accepts it,
because Python's `$` anchor in `PHONE_REGEX` also matches just before a single
trailing newline. -/
theorem C7_e164_counterexample :
    is_valid_e164 "+12\n" = false ∧
    specE164Shape "+12\n" = false ∧
    smsRequestValidate "+12\n" "Test message" = .ok () :=
  ⟨by decide, by decide, by rfl⟩

/-- C7 (amended): for a message of valid length, `SMSRequest` construction
accepts a phone string iff it is of the claimed E.164 shape — `+` followed by
2 to 15 digits with first digit 1-9 — or is such a shape followed by one
trailing newline (Python `$` semantics, over ASCII strings); `is_valid_e164`
(modelled from the spec) accepts exactly the claimed shape; every other string
is rejected with the E.164 format error. -/
theorem C7_e164_shape_amended (phone msg : String)
    (h1 : 1 ≤ msg.length) (h2 : msg.length ≤ MAX_MESSAGE_LENGTH) :
    (smsRequestValidate phone msg = .ok () ↔
      (is_valid_e164 phone = true ∨
        (phone.toList.getLast? = some '\n' ∧
          is_valid_e164 (String.mk phone.toList.dropLast) = true))) ∧
    (is_valid_e164 phone = specE164Shape phone) ∧
    (¬(is_valid_e164 phone = true ∨
        (phone.toList.getLast? = some '\n' ∧
          is_valid_e164 (String.mk phone.toList.dropLast) = true)) →
      smsRequestValidate phone msg =
        .error "Phone number must be in E.164 format (e.g., +1234567890)") := by
  have hshape := PHONE_REGEX_match_iff phone
  have hok := smsRequestValidate_ok_iff phone msg h1 h2
  refine ⟨?_, rfl, ?_⟩
  · rw [hok, hshape]
    rfl
  · intro hnot
    have hm : PHONE_REGEX_match phone = false := by
      rw [← Bool.not_eq_true, hshape]
      exact hnot
    unfold smsRequestValidate
    rw [hm]
    rfl

/-- Witness for C7 (amended) at a conforming phone and message. -/
theorem C7_e164_shape_amended_witness :
    smsRequestValidate "+1234567890" "Test message" = .ok () ↔
      (is_valid_e164 "+1234567890" = true ∨
        (("+1234567890" : String).toList.getLast? = some '\n' ∧
          is_valid_e164 (String.mk ("+1234567890" : String).toList.dropLast) = true)) :=
  (C7_e164_shape_amended "+1234567890" "Test message"
    (by decide) (by decide)).1

/-- C10: `SMSRequest` construction raises ValueError when the message is empty
or longer than `MAX_MESSAGE_LENGTH` (2000), succeeds for every phone the regex
accepts with a message of length 1 to 2000, and performs the phone-format
check before the message-length checks (a bad phone reports the E.164 error
even when the message is also invalid). -/
theorem C10_message_length_validation (phone msg : String) :
    (PHONE_REGEX_match phone = false →
      smsRequestValidate phone msg =
        .error "Phone number must be in E.164 format (e.g., +1234567890)") ∧
    (PHONE_REGEX_match phone = true → MAX_MESSAGE_LENGTH < msg.length →
      smsRequestValidate phone msg =
        .error "Message length exceeds maximum of 2000 characters") ∧
    (PHONE_REGEX_match phone = true → msg.length = 0 →
      smsRequestValidate phone msg = .error "Message cannot be empty") ∧
    (PHONE_REGEX_match phone = true → 1 ≤ msg.length →
      msg.length ≤ MAX_MESSAGE_LENGTH →
      smsRequestValidate phone msg = .ok ()) := by
  refine ⟨?_, ?_, ?_, ?_⟩
  · intro hm
    unfold smsRequestValidate
    rw [hm]
    rfl
  · intro hm hlen
    unfold smsRequestValidate
    rw [hm]
    simp only [Bool.not_true, Bool.false_eq_true, if_false]
    rw [if_pos (by omega)]
  · intro hm hlen
    unfold smsRequestValidate
    rw [hm]
    simp only [Bool.not_true, Bool.false_eq_true, if_false]
    have : MAX_MESSAGE_LENGTH = 2000 := rfl
    rw [if_neg (by omega), if_pos (by simp [hlen])]
  · intro hm h1 h2
    exact (smsRequestValidate_ok_iff phone msg h1 h2).mpr hm

/-- Witness for C10: a conforming phone with valid, overlong, and empty
messages. -/
theorem C10_message_length_validation_witness :
    smsRequestValidate "+1234567890" "Test message" = .ok () :=
  (C10_message_length_validation "+1234567890" "Test message").2.2.2
    (by decide) (by decide) (by decide)
